import Mathlib

/-!
Verification development for the ctsm_py post-processing core.

Two components are modelled, directly from the Python sources:

* `ctsm_py/fates_xarray_funcs.py` — `deduplex` and its helper
  `_get_check_dim`: splitting a combined ("duplexed") FATES dimension
  into its two constituent dimensions via
  `rolling(...).construct(...).isel(...)`, coordinate assignment and an
  optional dimension-order restoration.
* `1d_crop_work.py` — detection of sowing/harvest events from a crop
  phase-code series and the per-crop pairing loop with its
  leading-harvest discard, count reconciliation, temporal-window check
  and final column concatenation.

Arrays are modelled as Lean lists; a missing value (numpy NaN) along the
window dimension is `Option.none`; every numpy/xarray operation that can
raise is modelled in `Except String`.
-/

namespace CtsmPy

/-! ### AxisSplitter: `fates_xarray_funcs._get_check_dim` / `deduplex` -/

/-- `_get_check_dim(dim_short, dataset)`: prepend `"fates_lev"` and require
the resulting name to be a dimension of the Dataset, else `NameError`. -/
def get_check_dim (dim_short : String) (ds_dims : List String) : Except String String :=
  let dim := "fates_lev" ++ dim_short
  if ds_dims.contains dim then Except.ok dim
  else Except.error ("Dimension " ++ dim ++ " not present in Dataset")

/-- The name-resolution phase of `deduplex` (source lines 63–70): the combined
dimension `"fates_lev" ++ dim1_short ++ dim2_short` must be a dimension of the
DataArray, and both constituent dimensions must be present on the Dataset.
No other name condition is checked. -/
def deduplex_name_checks (da_dims ds_dims : List String)
    (dim1_short dim2_short : String) : Except String (String × String) :=
  let dim_combined := "fates_lev" ++ dim1_short ++ dim2_short
  if da_dims.contains dim_combined then
    match get_check_dim dim1_short ds_dims with
    | Except.error e => Except.error e
    | Except.ok dim1 =>
      match get_check_dim dim2_short ds_dims with
      | Except.error e => Except.error e
      | Except.ok dim2 => Except.ok (dim1, dim2)
  else
    Except.error ("Dimension " ++ dim_combined ++ " not present in DataArray")

/-- xarray `da.rolling({dim: n}, center=False).construct(dim1)` along a single
axis: position `p` carries the window of the `n` values ending at `p`;
entries where the window reaches before the start of the array are NaN
(`none`).  Window entry `j` (for `j < n`) at position `p` is the original
value at index `p + 1 + j - n` when that is non-negative. -/
def rolling_construct (n : Nat) (xs : List Int) : List (List (Option Int)) :=
  (List.range xs.length).map fun p =>
    (List.range n).map fun j =>
      if n ≤ p + 1 + j then xs[p + 1 + j - n]? else none

/-- Python/xarray positional slicing `[start::step]`: the elements at
positions `start, start+step, …`; there are `⌈(len−start)/step⌉` of them. -/
def slice_step (start step : Nat) (xs : List (List (Option Int))) :
    List (List (Option Int)) :=
  (List.range ((xs.length - start + step - 1) / step)).map fun k =>
    xs.getD (start + k * step) []

/-- The `preserve_order=True` transpose for an input whose only dimension was
the combined one: the result of the pipeline has dims `(dim2, dim1)` and is
transposed to `(dim1, dim2)`. -/
def transpose_rows (n : Nat) (rows : List (List (Option Int))) :
    List (List (Option Int)) :=
  (List.range n).map fun j => rows.map fun r => r.getD j none

/-- Data pipeline of `deduplex` (source lines 72–89, `preserve_order=True`)
restricted to the combined axis: `c1`/`c2` are the Dataset coordinates of
`dim1`/`dim2`, `xs` the data along the combined axis.  The window size is
`len(c1)`; `assign_coords` raises (modelled as `Except.error`) when a
coordinate's length conflicts with the axis extent it is assigned to.
The `dim1` axis produced by `construct` always has extent `len(c1)`, so the
first `assign_coords` can only fail vacuously; the `dim2` axis keeps
`⌈(len(xs)−(len(c1)−1))/len(c1)⌉` positions after `isel`, which
`assign_coords` compares against `len(c2)`. -/
def deduplex (c1 c2 : List Int) (xs : List Int) :
    Except String (List (List (Option Int))) :=
  let n1 := c1.length
  let selected := slice_step (n1 - 1) n1 (rolling_construct n1 xs)
  if selected.all fun row => row.length == n1 then
    if c2.length = selected.length then
      Except.ok (transpose_rows n1 selected)
    else Except.error "conflicting sizes for dimension"
  else Except.error "conflicting sizes for dimension"

/-- The dimension list of the intermediate `da_out` before reordering
(source lines 74–79): the combined dimension is renamed in place to `dim2`
and `construct` appended `dim1` at the end. -/
def dedup_dims (dim_combined dim1 dim2 : String) (dims : List String) :
    List String :=
  (dims.map fun d => if d = dim_combined then dim2 else d) ++ [dim1]

/-- One iteration of the reorder loop (source lines 84–88): insert `dim1`
just before `dim2`, and skip the stray trailing `dim1`. -/
def reorder_step (dim1 dim2 : String) (acc : List String) (dim : String) :
    List String :=
  let acc1 := if dim = dim2 then acc ++ [dim1] else acc
  if dim ≠ dim1 then acc1 ++ [dim] else acc1

/-- `new_dim_order` built by the `preserve_order` loop (source lines 83–88). -/
def new_dim_order (dim1 dim2 : String) (dims : List String) : List String :=
  dims.foldl (reorder_step dim1 dim2) []

/-- Modelled from the spec: the ordering the spec promises — every axis keeps
its relative order and the combined axis is replaced in place by the pair
(outer, inner). -/
def spec_dim_order (dim_combined dim1 dim2 : String) (dims : List String) :
    List String :=
  dims.flatMap fun d => if d = dim_combined then [dim1, dim2] else [d]

/-! ### PhenologyEventExtractor: `1d_crop_work.py` lines 194–245 -/

/-- `is_sdate` (source lines 196–199): `cphase[:-1] == 4 AND cphase[1:] < 4`,
then a `False` row appended at the end, so entry `t` marks the step *at*
which the 4→(<4) transition begins. -/
def is_sdate (phase : List Int) : List Bool :=
  ((phase.zip (phase.drop 1)).map fun p => decide (p.1 = 4) && decide (p.2 < 4)) ++ [false]

/-- `is_hdate` (source lines 200–203): `cphase[:-1] < 4 AND cphase[1:] == 4`,
then a `False` row appended at the end. -/
def is_hdate (phase : List Int) : List Bool :=
  ((phase.zip (phase.drop 1)).map fun p => decide (p.1 < 4) && decide (p.2 = 4)) ++ [false]

/-- `get_dates` (source lines 206–209) for one crop column: boolean-mask
selection of the `(year, day-of-year)` rows where the flag holds. -/
def get_dates (flags : List Bool) (year_jday : List (Int × Int)) :
    List (Int × Int) :=
  ((year_jday.zip flags).filter fun p => p.2).map fun p => p.1

/-- numpy's message for indexing an empty first axis with `[0, 1]`. -/
def index_error_msg : String := "index 0 is out of bounds for axis 0 with size 0"

/-- Leading-harvest discard (source lines 218–220): compares
`this_sdates[0,1]` with `this_hdates[0,1]` — an `IndexError` if either
array is empty (Python evaluates the sowing side first) — and drops the
first harvest row when the first sowing day-of-year is greater. -/
def leading_discard (sdates hdates0 : List (Int × Int)) :
    Except String (List (Int × Int)) :=
  match sdates, hdates0 with
  | [], _ => Except.error index_error_msg
  | _ :: _, [] => Except.error index_error_msg
  | s0 :: _, h0 :: hrest =>
    Except.ok (if s0.2 > h0.2 then hrest else hdates0)

/-- Message of the `ValueError` at source lines 226–227. -/
def harvests_sowings_msg (nhar nsow : Nat) : String :=
  toString nhar ++ " harvests but only " ++ toString nsow ++ " sowings"

/-- Message of the `ValueError` at source lines 232–233. -/
def sowings_harvests_msg (nsow nhar : Nat) : String :=
  toString nsow ++ " sowings but only " ++ toString nhar ++ " harvests"

/-- Count reconciliation (source lines 222–236).  Harvest rows are
`(year, Option day)` so that the appended last-season row can carry
`np.nan` (`none`) as its day.  Note the source really drops the first
remaining harvest row (`this_hdates[1:,:]`) before appending
`[[this_sdates[-1,0], np.nan]]`. -/
def count_reconcile (sdates : List (Int × Int))
    (hdates1 : List (Int × Option Int)) : Except String (List (Int × Option Int)) :=
  if sdates.length < hdates1.length then
    Except.error (harvests_sowings_msg hdates1.length sdates.length)
  else if sdates.length > hdates1.length then
    if sdates.length > hdates1.length + 1 then
      Except.error (sowings_harvests_msg sdates.length hdates1.length)
    else
      Except.ok (hdates1.drop 1 ++ [((sdates.getLastD (0, 0)).1, none)])
  else Except.ok hdates1

/-- numpy broadcast semantics of `any(xs > ys)` for two 1-D arrays: shapes
must be equal or one of them of size 1 (which is then broadcast); otherwise a
`ValueError`. -/
def np_broadcast_any_gt (xs ys : List Int) : Except String Bool :=
  if xs.length = ys.length then
    Except.ok ((xs.zip ys).any fun p => decide (p.2 < p.1))
  else if xs.length = 1 then
    Except.ok (ys.any fun y => decide (y < xs.headD 0))
  else if ys.length = 1 then
    Except.ok (xs.any fun x => decide (ys.headD 0 < x))
  else Except.error "operands could not be broadcast together"

/-- Message of the `ValueError` at source line 240. -/
def harvest_window_msg : String :=
  "Some harvest does not occur in either the same year as or year after corresponding sowing"

/-- Temporal-window validation (source lines 238–240):
`any(this_hdates[:,0] > this_sdates[:,0] + 1)` raises when true. -/
def temporal_check (sdates : List (Int × Int))
    (hdates2 : List (Int × Option Int)) : Except String Unit :=
  match np_broadcast_any_gt (hdates2.map Prod.fst)
      ((sdates.map Prod.fst).map fun y => y + 1) with
  | Except.error e => Except.error e
  | Except.ok true => Except.error harvest_window_msg
  | Except.ok false => Except.ok ()

/-- numpy's message when `np.concatenate(..., axis=1)` gets mismatched
first-axis lengths. -/
def concat_msg : String :=
  "all the input array dimensions except for the concatenation axis must match exactly"

/-- Row assembly (source line 243):
`np.concatenate((this_sdates, this_hdates[:,1:]), axis=1)` — requires the
two row counts to match and yields rows
`(sowing year, sowing day, harvest day)`. -/
def concat_dates (sdates : List (Int × Int))
    (hdates2 : List (Int × Option Int)) :
    Except String (List (Int × Int × Option Int)) :=
  if sdates.length = hdates2.length then
    Except.ok ((sdates.zip hdates2).map fun p => (p.1.1, p.1.2, p.2.2))
  else Except.error concat_msg

/-- The whole per-crop body of the loop at source lines 212–245. -/
def crop_pairing (sdates hdates0 : List (Int × Int)) :
    Except String (List (Int × Int × Option Int)) :=
  match leading_discard sdates hdates0 with
  | Except.error e => Except.error e
  | Except.ok hd1 =>
    let hdates1 := hd1.map fun p => (p.1, some p.2)
    match count_reconcile sdates hdates1 with
    | Except.error e => Except.error e
    | Except.ok hdates2 =>
      match temporal_check sdates hdates2 with
      | Except.error e => Except.error e
      | Except.ok _ => concat_dates sdates hdates2

/-- Event detection plus pairing for one crop column: phase series and the
parallel `(year, day-of-year)` index. -/
def extract_crop (phase : List Int) (year_jday : List (Int × Int)) :
    Except String (List (Int × Int × Option Int)) :=
  crop_pairing (get_dates (is_sdate phase) year_jday)
    (get_dates (is_hdate phase) year_jday)

/-! ### Helper lemmas -/

theorem length_rolling_construct (n : Nat) (xs : List Int) :
    (rolling_construct n xs).length = xs.length := by
  simp [rolling_construct]

theorem length_slice_step (start step : Nat) (xs : List (List (Option Int))) :
    (slice_step start step xs).length = (xs.length - start + step - 1) / step := by
  simp [slice_step]

theorem getD_eq_of_getElem? {α : Type _} {l : List α} {i : Nat} {a : α} (d : α)
    (h : l[i]? = some a) : l.getD i d = a := by
  obtain ⟨hi, he⟩ := List.getElem?_eq_some.mp h
  rw [List.getD_eq_getElem l d hi, he]

theorem map_range_getD {α : Type _} (f : Nat → α) {n i : Nat} (h : i < n) (d : α) :
    ((List.range n).map f).getD i d = f i :=
  getD_eq_of_getElem? d (by rw [List.getElem?_map, List.getElem?_range h]; rfl)

theorem slice_step_getD (start step : Nat) (xs : List (List (Option Int))) {k : Nat}
    (hk : k < (xs.length - start + step - 1) / step) :
    (slice_step start step xs).getD k [] = xs.getD (start + k * step) [] :=
  map_range_getD _ hk _

theorem rolling_construct_getD (n : Nat) (xs : List Int) {p : Nat} (hp : p < xs.length) :
    (rolling_construct n xs).getD p []
      = (List.range n).map fun j => if n ≤ p + 1 + j then xs[p + 1 + j - n]? else none :=
  map_range_getD _ hp _

theorem ceil_div_count {N n1 : Nat} (h : 0 < n1) :
    (N - (n1 - 1) + n1 - 1) / n1 = N / n1 := by
  rcases Nat.lt_or_ge N (n1 - 1) with hN | hN
  · have e : N - (n1 - 1) + n1 - 1 = n1 - 1 := by omega
    rw [e, Nat.div_eq_of_lt (by omega), Nat.div_eq_of_lt (by omega)]
  · have e : N - (n1 - 1) + n1 - 1 = N := by omega
    rw [e]

theorem selected_length (c1 xs : List Int) (h : 0 < c1.length) :
    (slice_step (c1.length - 1) c1.length (rolling_construct c1.length xs)).length
      = xs.length / c1.length := by
  rw [length_slice_step, length_rolling_construct, ceil_div_count h]

theorem selected_index_lt {N n1 k : Nat} (h1 : 0 < n1) (hk : k < N / n1) :
    n1 - 1 + k * n1 < N := by
  have h2 : k * n1 + n1 ≤ N := by
    calc k * n1 + n1 = (k + 1) * n1 := by ring
    _ ≤ N / n1 * n1 := Nat.mul_le_mul_right n1 hk
    _ ≤ N := Nat.div_mul_le_self N n1
  suffices h : ∀ K, K + n1 ≤ N → n1 - 1 + K < N from h (k * n1) h2
  intro K hK
  omega

theorem selected_row (c1 xs : List Int) (h1 : 0 < c1.length) {k : Nat}
    (hk : k < xs.length / c1.length) :
    (slice_step (c1.length - 1) c1.length (rolling_construct c1.length xs)).getD k []
      = (List.range c1.length).map fun j =>
          if c1.length ≤ c1.length - 1 + k * c1.length + 1 + j
          then xs[c1.length - 1 + k * c1.length + 1 + j - c1.length]? else none := by
  rw [slice_step_getD _ _ _
      (by rw [length_rolling_construct, ceil_div_count h1]; exact hk),
    rolling_construct_getD _ _ (selected_index_lt h1 hk)]

theorem selected_all_rows (c1 xs : List Int) (h1 : 0 < c1.length) :
    ((slice_step (c1.length - 1) c1.length (rolling_construct c1.length xs)).all
      fun row => row.length == c1.length) = true := by
  rw [List.all_eq_true]
  intro row hrow
  unfold slice_step at hrow
  obtain ⟨k, hk, hfk⟩ := List.mem_map.mp hrow
  have hk' : k < xs.length / c1.length := by
    have := List.mem_range.mp hk
    rwa [length_rolling_construct, ceil_div_count h1] at this
  rw [← hfk, rolling_construct_getD _ _ (selected_index_lt h1 hk')]
  simp

theorem deduplex_def (c1 c2 xs : List Int) :
    deduplex c1 c2 xs =
      (if (slice_step (c1.length - 1) c1.length (rolling_construct c1.length xs)).all
          (fun row => row.length == c1.length) then
        if c2.length
            = (slice_step (c1.length - 1) c1.length (rolling_construct c1.length xs)).length then
          Except.ok (transpose_rows c1.length
            (slice_step (c1.length - 1) c1.length (rolling_construct c1.length xs)))
        else Except.error "conflicting sizes for dimension"
      else Except.error "conflicting sizes for dimension") := rfl

theorem deduplex_eq_ok (c1 c2 xs : List Int) (h1 : 0 < c1.length)
    (h2 : c2.length = xs.length / c1.length) :
    deduplex c1 c2 xs = Except.ok (transpose_rows c1.length
      (slice_step (c1.length - 1) c1.length (rolling_construct c1.length xs))) := by
  rw [deduplex_def, if_pos (selected_all_rows c1 xs h1),
    if_pos (by rw [selected_length c1 xs h1]; exact h2)]

/-! ### Claim theorems -/

/-- C1 (counterexample). The claim predicts that, with `dim1` as the outer axis
(coords `[0,1]`, length 2) and `dim2` as the inner axis (coords `[0,1,2]`,
length 3), the output at outer position 0 and inner position 1 is the input at
combined index `0*3+1`, i.e. `11`; `deduplex` instead yields the input at
`1*2+0`, i.e. `12`. -/
theorem deduplex_inner_fastest_refuted :
    (deduplex [0, 1] [0, 1, 2] [10, 11, 12, 13, 14, 15]).toOption.map
        (fun out => (out.getD 0 []).getD 1 none) = some (some 12)
    ∧ ([10, 11, 12, 13, 14, 15] : List Int)[0 * 3 + 1]? = some 11
    ∧ some (12 : Int) ≠ some 11 :=
  ⟨rfl, rfl, by decide⟩

/-- C1 (amended): split index arithmetic as the code implements it.  For a
combined axis of extent `len(c1)*len(c2)`, the output of `deduplex` at `dim1`
position `a` and `dim2` position `b` is the input value at combined index
`b*len(c1)+a`: the *first* (`dim1`) axis varies fastest in the original layout
and blocks have size `len(c1)`. -/
theorem deduplex_index_arithmetic (c1 c2 xs : List Int)
    (hlen : xs.length = c1.length * c2.length) (a b : Nat)
    (ha : a < c1.length) (hb : b < c2.length) :
    ∃ out, deduplex c1 c2 xs = Except.ok out
      ∧ (out.getD a []).getD b none = xs[b * c1.length + a]? := by
  have h1 : 0 < c1.length := lt_of_le_of_lt (Nat.zero_le a) ha
  have hdiv : xs.length / c1.length = c2.length := by
    rw [hlen, Nat.mul_div_cancel_left _ h1]
  refine ⟨_, deduplex_eq_ok c1 c2 xs h1 hdiv.symm, ?_⟩
  have hsellen :
      (slice_step (c1.length - 1) c1.length (rolling_construct c1.length xs)).length
        = c2.length := by
    rw [selected_length c1 xs h1, hdiv]
  have hb' : b < (slice_step (c1.length - 1) c1.length
      (rolling_construct c1.length xs)).length := by rw [hsellen]; exact hb
  rw [show transpose_rows c1.length
        (slice_step (c1.length - 1) c1.length (rolling_construct c1.length xs))
      = (List.range c1.length).map (fun j =>
          (slice_step (c1.length - 1) c1.length (rolling_construct c1.length xs)).map
            fun r => r.getD j none) from rfl]
  rw [map_range_getD _ ha]
  rw [List.getD_eq_getElem _ _ (by rw [List.length_map]; exact hb'), List.getElem_map,
    ← List.getD_eq_getElem _ [] hb']
  rw [selected_row c1 xs h1 (by rw [hdiv]; exact hb)]
  rw [map_range_getD _ ha]
  rw [if_pos (by
    suffices h : ∀ K : Nat, c1.length ≤ c1.length - 1 + K + 1 + a from h (b * c1.length)
    intro K; omega)]
  have hx : c1.length - 1 + b * c1.length + 1 + a - c1.length = b * c1.length + a := by
    suffices h : ∀ K : Nat, c1.length - 1 + K + 1 + a - c1.length = K + a from
      h (b * c1.length)
    intro K; omega
  rw [hx]

/-- C1 (witness for `deduplex_index_arithmetic`). -/
theorem deduplex_index_arithmetic_witness :
    ∃ out, deduplex [0, 1] [0, 1, 2] [10, 11, 12, 13, 14, 15] = Except.ok out
      ∧ (out.getD 0 []).getD 1 none = ([10, 11, 12, 13, 14, 15] : List Int)[1 * 2 + 0]? :=
  deduplex_index_arithmetic [0, 1] [0, 1, 2] [10, 11, 12, 13, 14, 15] (by decide) 0 1
    (by decide) (by decide)

/-- C3 (counterexample). With `len(outer)=2`, `len(inner)=3` and a combined
extent of 7 (`2*3 ≠ 7`), `deduplex` does not fail: it returns a silently
truncated result in which the last input value `16` never appears. -/
theorem deduplex_silent_truncation :
    deduplex [0, 1] [0, 1, 2] [10, 11, 12, 13, 14, 15, 16]
      = Except.ok [[some 10, some 12, some 14], [some 11, some 13, some 15]]
    ∧ 2 * 3 ≠ 7 :=
  ⟨rfl, by decide⟩

/-- C3 (amended): the only extent validation `deduplex` performs is the
coordinate-length comparison inside `assign_coords`, which accepts exactly
when `len(c2) = ⌊extent / len(c1)⌋`; whenever the extent is not a multiple of
`len(c1)` (or exceeds `len(c1)*len(c2)`) but this quotient still matches,
the reshape silently truncates instead of failing. -/
theorem deduplex_extent_check (c1 c2 xs : List Int) (h1 : 0 < c1.length) :
    (∃ out, deduplex c1 c2 xs = Except.ok out) ↔ c2.length = xs.length / c1.length := by
  constructor
  · rintro ⟨out, hout⟩
    rw [deduplex_def, if_pos (selected_all_rows c1 xs h1)] at hout
    by_cases hc : c2.length
        = (slice_step (c1.length - 1) c1.length (rolling_construct c1.length xs)).length
    · rw [← selected_length c1 xs h1]; exact hc
    · rw [if_neg hc] at hout
      exact absurd hout (by simp)
  · intro hc
    exact ⟨_, deduplex_eq_ok c1 c2 xs h1 hc⟩

/-- C3 (witness for `deduplex_extent_check`). -/
theorem deduplex_extent_check_witness :
    ∃ out, deduplex [0, 1] [0, 1, 2] [10, 11, 12, 13, 14, 15] = Except.ok out :=
  (deduplex_extent_check [0, 1] [0, 1, 2] [10, 11, 12, 13, 14, 15] (by decide)).mpr
    (by decide)

theorem foldl_reorder_of_ne (d1 d2 : String) (l : List String) (acc : List String)
    (hl : ∀ d ∈ l, d ≠ d1) :
    l.foldl (reorder_step d1 d2) acc
      = acc ++ l.flatMap fun d => if d = d2 then [d1, d] else [d] := by
  induction l generalizing acc with
  | nil => simp
  | cons x t ih =>
    have hx : x ≠ d1 := hl x (by simp)
    rw [List.foldl_cons, ih _ fun d hd => hl d (by simp [hd])]
    by_cases hx2 : x = d2
    · have hd21 : d2 ≠ d1 := hx2 ▸ hx
      simp [reorder_step, hx, hx2, hd21]
    · simp [reorder_step, hx, hx2]

theorem map_flatMap_spec_order (dim_combined d1 d2 : String) (dims : List String)
    (h1 : d1 ∉ dims) (h2 : d2 ∉ dims) :
    ((dims.map fun d => if d = dim_combined then d2 else d).flatMap
        fun d => if d = d2 then [d1, d] else [d])
      = spec_dim_order dim_combined d1 d2 dims := by
  induction dims with
  | nil => rfl
  | cons x t ih =>
    have hxd2 : x ≠ d2 := fun h => h2 (h ▸ List.mem_cons_self x t)
    have iht := ih (fun h => h1 (List.mem_cons_of_mem x h))
      (fun h => h2 (List.mem_cons_of_mem x h))
    unfold spec_dim_order at iht ⊢
    by_cases hx : x = dim_combined
    · rw [List.map_cons, if_pos hx, List.flatMap_cons, if_pos rfl, List.flatMap_cons,
        if_pos hx, iht]
    · rw [List.map_cons, if_neg hx, List.flatMap_cons, if_neg hxd2, List.flatMap_cons,
        if_neg hx, iht]

/-- C8: with `preserve_order=True` the reorder loop applied to the dimension
list produced by the pipeline (combined renamed in place to `dim2`, `dim1`
appended at the end) yields exactly the input order with the combined axis
replaced in place by the adjacent pair `(dim1, dim2)` — `dim1` immediately
preceding `dim2` — and every other axis keeping its relative order. -/
theorem order_preservation (dims : List String) (dim_combined d1 d2 : String)
    (h1 : d1 ∉ dims) (h2 : d2 ∉ dims) (h12 : d1 ≠ d2) :
    new_dim_order d1 d2 (dedup_dims dim_combined d1 d2 dims)
      = spec_dim_order dim_combined d1 d2 dims := by
  unfold new_dim_order dedup_dims
  rw [List.foldl_append]
  have hstep : ∀ acc : List String, List.foldl (reorder_step d1 d2) acc [d1] = acc := by
    intro acc
    simp [reorder_step, h12]
  rw [hstep]
  rw [foldl_reorder_of_ne d1 d2 _ [] ?hne]
  case hne =>
    intro d hd
    obtain ⟨x, hx, hfx⟩ := List.mem_map.mp hd
    by_cases hxc : x = dim_combined
    · rw [← hfx, if_pos hxc]
      exact Ne.symm h12
    · rw [← hfx, if_neg hxc]
      exact fun h => h1 (h ▸ hx)
  rw [List.nil_append]
  exact map_flatMap_spec_order dim_combined d1 d2 dims h1 h2

/-- C8 (witness for `order_preservation`). -/
theorem order_preservation_witness :
    new_dim_order "fates_levage" "fates_levpft"
        (dedup_dims "fates_levagepft" "fates_levage" "fates_levpft"
          ["time", "fates_levagepft", "lat", "lon"])
      = spec_dim_order "fates_levagepft" "fates_levage" "fates_levpft"
          ["time", "fates_levagepft", "lat", "lon"] :=
  order_preservation ["time", "fates_levagepft", "lat", "lon"]
    "fates_levagepft" "fates_levage" "fates_levpft" (by decide) (by decide) (by decide)

/-- C5: a sowing is registered at step `t` (for `t + 1 < T`) exactly when
`phase[t] = 4` and `phase[t+1] < 4`, a harvest exactly when `phase[t] < 4`
and `phase[t+1] = 4`, and the final step `T−1` never registers either event
(the appended `False` row). -/
theorem event_detection_rule (phase : List Int) (t : Nat) (ht : t + 1 < phase.length) :
    ((is_sdate phase).getD t false
      = (decide (phase.getD t 0 = 4) && decide (phase.getD (t + 1) 0 < 4)))
    ∧ ((is_hdate phase).getD t false
      = (decide (phase.getD t 0 < 4) && decide (phase.getD (t + 1) 0 = 4)))
    ∧ (is_sdate phase).getD (phase.length - 1) false = false
    ∧ (is_hdate phase).getD (phase.length - 1) false = false := by
  have hz : (phase.zip (phase.drop 1)).length = phase.length - 1 := by
    rw [List.length_zip, List.length_drop]
    omega
  have hget : ∀ f : Int × Int → Bool,
      (((phase.zip (phase.drop 1)).map f) ++ [false]).getD t false
        = f (phase.getD t 0, phase.getD (t + 1) 0) := by
    intro f
    have hm : t < ((phase.zip (phase.drop 1)).map f).length := by
      rw [List.length_map, hz]; omega
    rw [List.getD_append _ _ _ _ hm, List.getD_eq_getElem _ _ hm, List.getElem_map]
    congr 1
    rw [List.getElem_zip, List.getElem_drop,
      List.getD_eq_getElem phase 0 (by omega), List.getD_eq_getElem phase 0 ht]
    simp only [Nat.add_comm]
  have hlast : ∀ f : Int × Int → Bool,
      (((phase.zip (phase.drop 1)).map f) ++ [false]).getD (phase.length - 1) false
        = false := by
    intro f
    rw [List.getD_append_right _ _ _ _ (by rw [List.length_map, hz])]
    rw [List.length_map, hz, Nat.sub_self]
    rfl
  exact ⟨hget _, hget _, hlast _, hlast _⟩

/-- C5 (witness for `event_detection_rule`). -/
theorem event_detection_rule_witness :
    ((is_sdate [4, 3]).getD 0 false
      = (decide (([4, 3] : List Int).getD 0 0 = 4)
          && decide (([4, 3] : List Int).getD 1 0 < 4)))
    ∧ ((is_hdate [4, 3]).getD 0 false
      = (decide (([4, 3] : List Int).getD 0 0 < 4)
          && decide (([4, 3] : List Int).getD 1 0 = 4)))
    ∧ (is_sdate [4, 3]).getD (([4, 3] : List Int).length - 1) false = false
    ∧ (is_hdate [4, 3]).getD (([4, 3] : List Int).length - 1) false = false :=
  event_detection_rule [4, 3] 0 (by decide)

/-- C2 (counterexample). On the spec's basic case — phases
`[4,3,2,4,4,3,2,4]`, days `[10,40,70,100,200,230,260,290]`, year 2001 —
the code yields *two* completed pairs, `(2001, 10, 70)` and
`(2001, 200, 260)` (events are registered at the step *before* each
transition and the fallow stretch between days 100 and 200 closes the first
season), not the single claimed pair `(2001, 40, 290)`. -/
theorem extract_basic_case_refuted :
    extract_crop [4, 3, 2, 4, 4, 3, 2, 4]
        [(2001, 10), (2001, 40), (2001, 70), (2001, 100),
          (2001, 200), (2001, 230), (2001, 260), (2001, 290)]
      = Except.ok [(2001, 10, some 70), (2001, 200, some 260)]
    ∧ ([(2001, 10, some 70), (2001, 200, some 260)] : List (Int × Int × Option Int))
      ≠ [(2001, 40, some 290)] :=
  ⟨rfl, by decide⟩

/-- C2 (amended): the basic case yields exactly two completed EventPairs,
sowing `(2001, 10)` harvested on day 70 and sowing `(2001, 200)` harvested on
day 260, with zero leftover unmatched events. -/
theorem extract_basic_case_two_pairs :
    extract_crop [4, 3, 2, 4, 4, 3, 2, 4]
        [(2001, 10), (2001, 40), (2001, 70), (2001, 100),
          (2001, 200), (2001, 230), (2001, 260), (2001, 290)]
      = Except.ok [(2001, 10, some 70), (2001, 200, some 260)] := rfl

/-- C4 (code bug). A plain trailing open season — sowings `(2001,10)` and
`(2001,200)`, one harvest `(2001,100)`, so `nsow = nhar + 1 = 2` after the
(vacuous) leading discard — does not produce the claimed final missing-day
pair: the code drops the first remaining harvest (`this_hdates[1:,:]`), leaving
one harvest row against two sowing rows, and the final
`np.concatenate(..., axis=1)` raises. -/
theorem trailing_open_season_crash :
    get_dates (is_sdate [4, 3, 4, 3, 3])
        [(2001, 10), (2001, 100), (2001, 200), (2001, 250), (2001, 300)]
      = [(2001, 10), (2001, 200)]
    ∧ get_dates (is_hdate [4, 3, 4, 3, 3])
        [(2001, 10), (2001, 100), (2001, 200), (2001, 250), (2001, 300)]
      = [(2001, 100)]
    ∧ extract_crop [4, 3, 4, 3, 3]
        [(2001, 10), (2001, 100), (2001, 200), (2001, 250), (2001, 300)]
      = Except.error concat_msg :=
  ⟨rfl, rfl, rfl⟩

/-- C6 (counterexample). The record starts mid-season with a harvest
`(2000, 360)` whose day-of-year is larger than the first sowing's day 100, so
the leading discard does not fire; positional pairing then pairs the sowing
`(2001, 100)` with the harvest `(2000, 360)` — harvest year strictly less
than sowing year, outside the claimed window — yet the code accepts and
returns both pairs instead of raising. -/
theorem harvest_before_sowing_accepted :
    get_dates (is_sdate [3, 4, 3, 4, 3, 3])
        [(2000, 360), (2001, 100), (2001, 250), (2001, 300), (2002, 50), (2002, 60)]
      = [(2001, 100), (2001, 300)]
    ∧ get_dates (is_hdate [3, 4, 3, 4, 3, 3])
        [(2000, 360), (2001, 100), (2001, 250), (2001, 300), (2002, 50), (2002, 60)]
      = [(2000, 360), (2001, 250)]
    ∧ extract_crop [3, 4, 3, 4, 3, 3]
        [(2000, 360), (2001, 100), (2001, 250), (2001, 300), (2002, 50), (2002, 60)]
      = Except.ok [(2001, 100, some 360), (2001, 300, some 250)]
    ∧ ¬((2000 : Int) = 2001 ∨ (2000 : Int) = 2001 + 1) :=
  ⟨rfl, rfl, rfl, by decide⟩

/-- C6 (amended): the temporal validation is one-sided.  For matching row
counts it passes exactly when every positionally paired harvest year is at
most the sowing year plus one; a harvest year strictly *less* than its
sowing year (or equal, or one more) is accepted — only
`harvest year > sowing year + 1` is rejected. -/
theorem temporal_check_upper_only (sdates : List (Int × Int))
    (hdates2 : List (Int × Option Int)) (hlen : hdates2.length = sdates.length) :
    temporal_check sdates hdates2 = Except.ok ()
      ↔ ∀ p ∈ hdates2.zip sdates, p.1.1 ≤ p.2.1 + 1 := by
  have hmap : (hdates2.map Prod.fst).length
      = ((sdates.map Prod.fst).map fun y => y + 1).length := by
    simp [hlen]
  have key : ((hdates2.map Prod.fst).zip ((sdates.map Prod.fst).map fun y => y + 1)).any
        (fun p => decide (p.2 < p.1)) = false
      ↔ ∀ p ∈ hdates2.zip sdates, p.1.1 ≤ p.2.1 + 1 := by
    simp [List.zip_map, List.any_eq_false, Prod.map, not_lt]
    constructor
    · intro h a b c d hm
      exact h a (c + 1) a b c d hm rfl rfl
    · intro h a b x x1 x2 x3 hm hxa hb
      rw [← hxa, ← hb]
      exact h x x1 x2 x3 hm
  unfold temporal_check np_broadcast_any_gt
  rw [if_pos hmap]
  cases hb : ((hdates2.map Prod.fst).zip ((sdates.map Prod.fst).map fun y => y + 1)).any
      (fun p => decide (p.2 < p.1)) with
  | false => exact iff_of_true rfl (key.mp hb)
  | true =>
    refine iff_of_false (fun h => Except.noConfusion h) fun hall => ?_
    have hf := key.mpr hall
    rw [hb] at hf
    exact Bool.noConfusion hf

/-- C6 (witness for `temporal_check_upper_only`): a harvest of year 2000
paired with a sowing of year 2001 passes the check. -/
theorem temporal_check_upper_only_witness :
    temporal_check [(2001, 100)] [(2000, some 360)] = Except.ok () :=
  (temporal_check_upper_only [(2001, 100)] [(2000, some 360)] (by decide)).mpr
    (by decide)

/-- C7: after the leading discard, the code raises the
"more harvests than sowings" error exactly when `nhar > nsow`, raises the
"more sowings than harvests" error exactly when `nsow > nhar + 1`, no other
error leaves this step, and when `nsow = nhar` the harvest list passes
through unchanged. -/
theorem count_reconciliation_fatals (sdates : List (Int × Int))
    (hdates1 : List (Int × Option Int)) :
    (hdates1.length > sdates.length →
      count_reconcile sdates hdates1
        = Except.error (harvests_sowings_msg hdates1.length sdates.length))
    ∧ (hdates1.length ≤ sdates.length → sdates.length > hdates1.length + 1 →
      count_reconcile sdates hdates1
        = Except.error (sowings_harvests_msg sdates.length hdates1.length))
    ∧ ((∃ e, count_reconcile sdates hdates1 = Except.error e) →
      hdates1.length > sdates.length ∨ sdates.length > hdates1.length + 1)
    ∧ (sdates.length = hdates1.length →
      count_reconcile sdates hdates1 = Except.ok hdates1) := by
  unfold count_reconcile
  refine ⟨?_, ?_, ?_, ?_⟩
  · intro h
    rw [if_pos (by omega)]
  · intro h1 h2
    rw [if_neg (by omega), if_pos (by omega), if_pos h2]
  · rintro ⟨e, he⟩
    by_cases hA : sdates.length < hdates1.length
    · left; omega
    · rw [if_neg hA] at he
      by_cases hB : sdates.length > hdates1.length
      · rw [if_pos hB] at he
        by_cases hC : sdates.length > hdates1.length + 1
        · right; omega
        · rw [if_neg hC] at he
          exact absurd he (by simp)
      · rw [if_neg hB] at he
        exact absurd he (by simp)
  · intro h
    rw [if_neg (by omega), if_neg (by omega)]

/-- C7 (witness for `count_reconciliation_fatals`). -/
theorem count_reconciliation_fatals_witness :
    count_reconcile [] [(2000, some 5)]
      = Except.error (harvests_sowings_msg 1 0) :=
  (count_reconciliation_fatals [] [(2000, some 5)]).1 (by decide)

/-- C9 (counterexample). `"fates_levage"` is already a dimension of the input
DataArray, yet `deduplex`'s name checks succeed: no "duplicate axis name"
error exists anywhere in the code — the checks only require the combined
name on the array and the constituent names on the Dataset. -/
theorem duplicate_axis_not_rejected :
    deduplex_name_checks ["fates_levagepft", "fates_levage"]
        ["fates_levage", "fates_levpft"] "age" "pft"
      = Except.ok ("fates_levage", "fates_levpft")
    ∧ "fates_levage" ∈ ["fates_levagepft", "fates_levage"] :=
  ⟨rfl, by decide⟩

/-- C9 (amended): the name checks of `deduplex` succeed exactly when the
combined dimension is present on the DataArray and both constituent
dimensions are present on the Dataset; presence of the constituent names on
the input array itself is never examined. -/
theorem deduplex_name_checks_spec (da_dims ds_dims : List String)
    (dim1_short dim2_short : String) :
    (∃ v, deduplex_name_checks da_dims ds_dims dim1_short dim2_short = Except.ok v)
      ↔ ("fates_lev" ++ dim1_short ++ dim2_short ∈ da_dims
        ∧ "fates_lev" ++ dim1_short ∈ ds_dims
        ∧ "fates_lev" ++ dim2_short ∈ ds_dims) := by
  by_cases h0 : "fates_lev" ++ dim1_short ++ dim2_short ∈ da_dims <;>
    by_cases hA : "fates_lev" ++ dim1_short ∈ ds_dims <;>
      by_cases hB : "fates_lev" ++ dim2_short ∈ ds_dims <;>
        simp [deduplex_name_checks, get_check_dim, h0, hA, hB]

/-- C10: a normal return of the per-crop extraction requires at least one
detected sowing and at least one detected harvest; a constant phase series
(no transitions at all) instead hits the out-of-bounds indexing error at the
leading-harvest-discard comparison. -/
theorem extraction_requires_events :
    (∀ (phase : List Int) (year_jday : List (Int × Int))
        (out : List (Int × Int × Option Int)),
      extract_crop phase year_jday = Except.ok out →
        get_dates (is_sdate phase) year_jday ≠ []
          ∧ get_dates (is_hdate phase) year_jday ≠ [])
    ∧ extract_crop [4, 4, 4] [(2001, 1), (2001, 2), (2001, 3)]
        = Except.error index_error_msg := by
  constructor
  · intro phase yj out h
    unfold extract_crop crop_pairing at h
    cases hs : get_dates (is_sdate phase) yj with
    | nil =>
      rw [hs] at h
      simp [leading_discard] at h
    | cons s0 st =>
      cases hh : get_dates (is_hdate phase) yj with
      | nil =>
        rw [hs, hh] at h
        simp [leading_discard] at h
      | cons h0 ht =>
        exact ⟨List.cons_ne_nil s0 st, List.cons_ne_nil h0 ht⟩
  · rfl

/-- C10 (witness for `extraction_requires_events`): applied at a series with
one sowing and one harvest, where extraction succeeds. -/
theorem extraction_requires_events_witness :
    get_dates (is_sdate [4, 3, 4]) [(2001, 1), (2001, 2), (2001, 3)] ≠ []
    ∧ get_dates (is_hdate [4, 3, 4]) [(2001, 1), (2001, 2), (2001, 3)] ≠ [] :=
  extraction_requires_events.1 [4, 3, 4] [(2001, 1), (2001, 2), (2001, 3)]
    [(2001, 1, some 2)] rfl

end CtsmPy
